import Mathlib

/-!
Verification development for the Oberon-07 RISC compiler (Go port).

The definitions below are shallow embeddings of the corresponding Go
functions of packages `ors` (scanner), `orb` (symbol table base),
`org` (code generator) and `orp` (parser).  Machine integers (`int`,
`int32`) are modelled as `Int` with explicit two's-complement wrapping
(`wrap32`, `wrap64`) exactly where the Go code can overflow.
-/

/-! ## Two's-complement wrapping -/

/-- Conversion of an unbounded integer to Go `int32`
(two's-complement truncation to 32 bits). -/
def wrap32 (z : Int) : Int :=
  (z + 2147483648) % 4294967296 - 2147483648

/-- Conversion of an unbounded integer to Go `int64`/`int`
(two's-complement truncation to 64 bits). -/
def wrap64 (z : Int) : Int :=
  (z + 9223372036854775808) % 18446744073709551616 - 9223372036854775808

theorem wrap32_emod (z : Int) : wrap32 z % 4294967296 = z % 4294967296 := by
  unfold wrap32; omega

theorem wrap64_emod (z : Int) : wrap64 z % 18446744073709551616 = z % 18446744073709551616 := by
  unfold wrap64; omega

theorem wrap32_wrap64 (z : Int) : wrap32 (wrap64 z) = wrap32 z := by
  unfold wrap32 wrap64; omega

/-! ## Scanner error reporting (`ors.Scanner.Mark`, src/ors/ors.go lines 56-66)

The scanner state relevant to diagnostics: `errPos` and `ErrCnt` are the
fields of `ors.Scanner` (zero-initialised by `NewScanner`); `emitted` is
the trace of position-stamped messages actually written to the sink `w`,
and `marked` is the trace of all `Mark` calls (ghost instrumentation). -/

structure ScanErr where
  errPos : Int
  errCnt : Nat
  emitted : List (Int × String)
  marked : List (Int × String)
deriving Repr, DecidableEq

/-- The scanner's diagnostic state right after `NewScanner`:
Go zero values for `errPos` and `ErrCnt`. -/
def initScanErr : ScanErr :=
  { errPos := 0, errCnt := 0, emitted := [], marked := [] }

/-- `ors.Scanner.Mark`: `p` is the current source position (`s.Pos()`).
The message is written to the sink only when `p > s.errPos` and
`s.ErrCnt < 25`; in every case `ErrCnt` is incremented and
`errPos` is set to `p + 4`. -/
def Mark (s : ScanErr) (p : Int) (msg : String) : ScanErr :=
  let s1 :=
    if p > s.errPos ∧ s.errCnt < 25 then
      { s with emitted := s.emitted ++ [(p, msg)] }
    else
      s
  { s1 with
    errCnt := s.errCnt + 1
    errPos := p + 4
    marked := s.marked ++ [(p, msg)] }

/-- A sequence of `Mark` calls (positions with messages), as produced by
scanning an erroneous input. -/
def markRun (s : ScanErr) (calls : List (Int × String)) : ScanErr :=
  calls.foldl (fun t c => Mark t c.1 c.2) s

theorem markRun_append (s : ScanErr) (l₁ l₂ : List (Int × String)) :
    markRun s (l₁ ++ l₂) = markRun (markRun s l₁) l₂ := by
  simp [markRun]

theorem Mark_errCnt (s : ScanErr) (p : Int) (m : String) :
    (Mark s p m).errCnt = s.errCnt + 1 := by
  simp [Mark]

theorem Mark_errPos (s : ScanErr) (p : Int) (m : String) :
    (Mark s p m).errPos = p + 4 := by
  simp [Mark]

theorem markRun_errCnt (s : ScanErr) (calls : List (Int × String)) :
    (markRun s calls).errCnt = s.errCnt + calls.length := by
  induction calls generalizing s with
  | nil => simp [markRun]
  | cons c cs ih =>
      have h := ih (Mark s c.1 c.2)
      simp only [markRun] at h ⊢
      simp [List.foldl_cons, h, Mark_errCnt]
      omega

theorem Mark_emitted_le (s : ScanErr) (p : Int) (m : String) :
    (Mark s p m).emitted.length ≤ s.emitted.length + 1 := by
  by_cases h : p > s.errPos ∧ s.errCnt < 25 <;> simp [Mark, h]

/-- When 25 or more errors are counted, `Mark` emits nothing further. -/
theorem Mark_emitted_of_curbed (s : ScanErr) (p : Int) (m : String)
    (h : 25 ≤ s.errCnt) : (Mark s p m).emitted = s.emitted := by
  have : ¬(p > s.errPos ∧ s.errCnt < 25) := by omega
  simp [Mark, this]

/-- Each emission happens under `errCnt < 25`, so the number of emitted
messages never exceeds `max errCnt 25`-style bounds; precisely:
`emitted.length ≤ min errCnt 25` is preserved by `Mark`. -/
theorem Mark_invariant (s : ScanErr) (p : Int) (m : String)
    (h : s.emitted.length ≤ min s.errCnt 25) :
    (Mark s p m).emitted.length ≤ min (Mark s p m).errCnt 25 := by
  by_cases hc : p > s.errPos ∧ s.errCnt < 25 <;>
    simp [Mark, hc] <;> omega

theorem markRun_invariant (s : ScanErr) (calls : List (Int × String))
    (h : s.emitted.length ≤ min s.errCnt 25) :
    (markRun s calls).emitted.length ≤ min (markRun s calls).errCnt 25 := by
  induction calls generalizing s with
  | nil => simpa [markRun] using h
  | cons c cs ih =>
      have h1 := Mark_invariant s c.1 c.2 h
      have h2 := ih (Mark s c.1 c.2) h1
      simpa [markRun] using h2

/-- C2: (counterexample) the scanner's error count is incremented on every
`Mark` call with no cap, so 26 spaced-out errors leave `ErrCnt = 26 > 25`. -/
theorem C2_counterexample :
    ¬((markRun initScanErr
        ((List.range 26).map (fun i => ((5 * (i : Int) + 1), "err")))).errCnt ≤ 25) := by
  decide

/-- C2 (amended): for every sequence of `Mark` calls, the number of
position-stamped messages written to the sink is at most 25 and at most the
error count; the error count itself equals the total number of `Mark` calls
and is not capped. -/
theorem C2_amended (calls : List (Int × String)) :
    (markRun initScanErr calls).emitted.length ≤ 25 ∧
    (markRun initScanErr calls).emitted.length ≤ (markRun initScanErr calls).errCnt ∧
    (markRun initScanErr calls).errCnt = calls.length := by
  have h := markRun_invariant initScanErr calls (by simp [initScanErr])
  have h2 := markRun_errCnt initScanErr calls
  refine ⟨by omega, by omega, by simpa [initScanErr] using h2⟩

/-- C9: (counterexample) after an error reported at position 1, a `Mark` at
position 5 satisfies the claim's condition (5 > last reported position + 3,
fewer than 25 messages emitted) yet writes nothing: the code requires
`p > errPos` where `errPos` = last mark position + 4. -/
theorem C9_counterexample :
    (Mark initScanErr 1 "e1").emitted = [((1 : Int), "e1")] ∧
    (5 : Int) > 1 + 3 ∧
    (Mark initScanErr 1 "e1").emitted.length < 25 ∧
    (Mark (Mark initScanErr 1 "e1") 5 "e2").emitted = [((1 : Int), "e1")] := by
  decide

/-- C9 (amended): a `Mark` call at position `p` writes a message to the sink
if and only if `p` is strictly greater than the position of the previous
`Mark` call plus 4 (`errPos`, initially 0) and fewer than 25 `Mark` calls
(reported or suppressed) have occurred so far; after any run of calls,
`errPos` is the last call's position plus 4 and the error count is the total
number of calls. -/
theorem C9_amended :
    (∀ (s : ScanErr) (p : Int) (m : String),
      ((Mark s p m).emitted = s.emitted ++ [(p, m)] ↔ p > s.errPos ∧ s.errCnt < 25) ∧
      (¬(p > s.errPos ∧ s.errCnt < 25) → (Mark s p m).emitted = s.emitted)) ∧
    (∀ (s : ScanErr) (calls : List (Int × String)) (p : Int) (m : String),
      (markRun s (calls ++ [(p, m)])).errPos = p + 4) ∧
    (∀ (s : ScanErr) (calls : List (Int × String)),
      (markRun s calls).errCnt = s.errCnt + calls.length) := by
  refine ⟨fun s p m => ⟨⟨fun h => ?_, fun h => by simp [Mark, h]⟩, fun h => by simp [Mark, h]⟩,
    fun s calls p m => ?_, markRun_errCnt⟩
  · by_contra hc
    have he : (Mark s p m).emitted = s.emitted := by simp [Mark, hc]
    rw [he] at h
    have hl := congrArg List.length h
    simp at hl
  · rw [markRun_append]
    simpa [markRun] using Mark_errPos (markRun s calls) p m

/-- C9 witness: the second `Mark` of the counterexample run discharged
through the amended theorem: its condition (5 > 1 + 4) fails, so the
message list is unchanged. -/
theorem C9_amended_witness :
    (Mark (Mark initScanErr 1 "e1") 5 "e2").emitted = (Mark initScanErr 1 "e1").emitted :=
  (C9_amended.1 (Mark initScanErr 1 "e1") 5 "e2").2 (by decide)

/-! ## Scanner identifiers (`ors.Scanner.identifier`, src/ors/ors.go lines 81-100) -/

/-- `ors.IdLen` (src/ors/ors.go line 16). -/
def IdLen : Nat := 32

/-- The loop-exit test of `identifier` (continue while the character is a
digit or a letter). -/
def isIdentChar (c : Char) : Bool :=
  !((c < '0' || c > '9') && (c < 'A' || c > 'Z') && (c < 'a' || c > 'z'))

/-- The buffer loop of `ors.Scanner.identifier`: a character is appended
only while the buffer is shorter than `IdLen - 1`. -/
def identBuf : List Char → List Char → List Char
  | buf, [] => buf
  | buf, c :: cs => identBuf (if buf.length < IdLen - 1 then buf ++ [c] else buf) cs

/-- The keyword table `ors.keyTab` (symbol codes follow the `Sym`
enumeration order of src/ors/ors.go lines 461-528). -/
def symNull : Nat := 0
def SymDiv : Nat := 3
def SymMod : Nat := 4
def SymOr : Nat := 8
def SymIn : Nat := 15
def SymIs : Nat := 16
def SymChar : Nat := 19
def SymInt : Nat := 20
def SymReal : Nat := 21
def SymFalse : Nat := 22
def SymTrue : Nat := 23
def SymNil : Nat := 24
def SymString : Nat := 25
def SymIdent : Nat := 30
def SymIf : Nat := 31
def SymWhile : Nat := 32
def SymRepeat : Nat := 33
def SymCase : Nat := 34
def SymFor : Nat := 35
def SymThen : Nat := 43
def SymOf : Nat := 44
def SymDo : Nat := 45
def SymTo : Nat := 46
def SymBy : Nat := 47
def SymEnd : Nat := 49
def SymBar : Nat := 50
def SymElse : Nat := 51
def SymElsif : Nat := 52
def SymUntil : Nat := 53
def SymReturn : Nat := 54
def SymArray : Nat := 55
def SymRecord : Nat := 56
def SymPointer : Nat := 57
def SymConst : Nat := 58
def SymType : Nat := 59
def SymVar : Nat := 60
def SymProcedure : Nat := 61
def SymBegin : Nat := 62
def SymImport : Nat := 63
def SymModule : Nat := 64

def keyTab : List (String × Nat) :=
  [("ARRAY", SymArray), ("BEGIN", SymBegin), ("BY", SymBy), ("CASE", SymCase),
   ("CONST", SymConst), ("DIV", SymDiv), ("DO", SymDo), ("ELSE", SymElse),
   ("ELSIF", SymElsif), ("END", SymEnd), ("FALSE", SymFalse), ("FOR", SymFor),
   ("IF", SymIf), ("IMPORT", SymImport), ("IN", SymIn), ("IS", SymIs),
   ("MOD", SymMod), ("MODULE", SymModule), ("NIL", SymNil), ("OF", SymOf),
   ("OR", SymOr), ("POINTER", SymPointer), ("PROCEDURE", SymProcedure),
   ("RECORD", SymRecord), ("REPEAT", SymRepeat), ("RETURN", SymReturn),
   ("THEN", SymThen), ("TO", SymTo), ("TRUE", SymTrue), ("TYPE", SymType),
   ("UNTIL", SymUntil), ("VAR", SymVar), ("WHILE", SymWhile)]

/-- `ors.Scanner.identifier` applied to the maximal identifier character
run `cs` of the input: delivers `(Id, sym)` where `Id` is the (possibly
truncated) identifier text and `sym` the keyword symbol or `SymIdent`. -/
def identifier (cs : List Char) : String × Nat :=
  let id := (identBuf [] cs).asString
  match keyTab.lookup id with
  | some kwSym => (id, kwSym)
  | none => (id, SymIdent)

theorem identBuf_full (cs buf : List Char) (h : ¬buf.length < IdLen - 1) :
    identBuf buf cs = buf := by
  induction cs with
  | nil => rfl
  | cons c cs ih => simp [identBuf, h, ih]

theorem identBuf_take (cs : List Char) :
    ∀ buf : List Char, buf.length ≤ IdLen - 1 →
      identBuf buf cs = buf ++ cs.take (IdLen - 1 - buf.length) := by
  induction cs with
  | nil => intro buf _; simp [identBuf]
  | cons c cs ih =>
      intro buf hb
      by_cases h : buf.length < IdLen - 1
      · have h1 : (buf ++ [c]).length ≤ IdLen - 1 := by simp; omega
        have h2 := ih (buf ++ [c]) h1
        simp only [identBuf, if_pos h, h2]
        have h3 : IdLen - 1 - buf.length = (IdLen - 1 - (buf.length + 1)) + 1 := by omega
        simp [h3, List.take_succ_cons]
      · have hb0 : IdLen - 1 - buf.length = 0 := by omega
        simp [identBuf, h, identBuf_full cs buf h, hb0]

set_option maxRecDepth 8000 in
/-- C3: (counterexample) an identifier of 40 characters is delivered
truncated to 31 characters (`IdLen - 1`), not to 32 as the claim states. -/
theorem C3_counterexample :
    ((identifier (List.replicate 40 'a')).1).length = 31 ∧
    (identifier (List.replicate 40 'a')).1 ≠
      ((List.replicate 40 'a').take 32).asString := by
  decide

/-- C3 (amended): every identifier character run is accepted and truncated
to its first `IdLen - 1 = 31` characters, both for the delivered `Id` value
and for the keyword lookup; a truncation that misses the keyword table
yields `SymIdent`. -/
theorem C3_amended (cs : List Char) :
    (identifier cs).1 = (cs.take (IdLen - 1)).asString ∧
    (keyTab.lookup ((cs.take (IdLen - 1)).asString) = none →
      (identifier cs).2 = SymIdent) ∧
    (31 ≤ cs.length → ((identifier cs).1).length = 31) := by
  have hid : identBuf [] cs = cs.take (IdLen - 1) := by
    simpa using identBuf_take cs [] (by simp)
  have h1 : (identifier cs).1 = (cs.take (IdLen - 1)).asString := by
    simp only [identifier, hid]
    cases hk : List.lookup (cs.take (IdLen - 1)).asString keyTab <;> simp [hk]
  refine ⟨h1, fun h => by simp [identifier, hid, h], fun h => ?_⟩
  have h2 : ((cs.take (IdLen - 1)).asString).length = (cs.take (IdLen - 1)).length := rfl
  rw [h1, h2, List.length_take]
  simp [IdLen]
  omega

set_option maxRecDepth 8000 in
/-- C3 witness: the amended theorem instantiated at the 40-character
identifier: it is truncated to 31 characters and is not a keyword. -/
theorem C3_amended_witness :
    (identifier (List.replicate 40 'a')).2 = SymIdent ∧
    ((identifier (List.replicate 40 'a')).1).length = 31 :=
  ⟨(C3_amended (List.replicate 40 'a')).2.1 (by decide),
   (C3_amended (List.replicate 40 'a')).2.2 (by decide)⟩

/-! ## Scanner numeric literals (`ors.Scanner.number`, src/ors/ors.go lines 166-294)

Digit codes are `int(ch) - 0x30` as collected by `number`: `'0'..'9'` give
0..9 and `'A'..'F'` give 17..22. -/

/-- The accumulation loop of the hex branch of `ors.Scanner.number`
(lines 182-188): letters are adjusted by −7, then `k = k*0x10 + h` with a
Go `int` (64-bit) accumulator — "no overflow check". -/
def hexFold : List Int → Int → Int
  | [], k => k
  | h₀ :: t, k => hexFold t (wrap64 (k * 16 + (if h₀ ≥ 10 then h₀ - 7 else h₀)))

/-- The exact (unbounded) value of the same digit string; reference
function used to state the claim. -/
def hexVal : List Int → Int → Int
  | [], k => k
  | h₀ :: t, k => hexVal t (k * 16 + (if h₀ ≥ 10 then h₀ - 7 else h₀))

/-- The `H` suffix case of `ors.Scanner.number` (lines 200-203): the
symbol is `SymInt`, `Ival = int32(k)`, and no diagnostic is issued. -/
def numberHex (d : List Int) : Int × Nat × List String :=
  (wrap32 (hexFold d 0), SymInt, [])

/-- `ors.Scanner.decimalInteger` (lines 279-294): decimal folding with an
overflow check against `2^31 − 1`; overflow raises "too large" and resets
the value, a non-decimal digit raises "bad integer". -/
def decimalInteger (digits : List Int) : Int × List String :=
  digits.foldl
    (fun km d =>
      if d < 10 then
        if km.1 ≤ (2147483647 - d).tdiv 10 then (km.1 * 10 + d, km.2)
        else (0, km.2 ++ ["too large"])
      else (km.1, km.2 ++ ["bad integer"]))
    (0, [])

theorem wrap32_congr (x y : Int)
    (h : x % 18446744073709551616 = y % 18446744073709551616) :
    wrap32 x = wrap32 y := by
  unfold wrap32; omega

theorem hexVal_congr (t : List Int) :
    ∀ a b : Int, a % 18446744073709551616 = b % 18446744073709551616 →
      hexVal t a % 18446744073709551616 = hexVal t b % 18446744073709551616 := by
  induction t with
  | nil => intro a b h; simpa [hexVal] using h
  | cons h₀ t ih =>
      intro a b h
      exact ih _ _ (by omega)

theorem hexFold_emod (d : List Int) :
    ∀ k : Int, hexFold d k % 18446744073709551616 =
      hexVal d k % 18446744073709551616 := by
  induction d with
  | nil => intro k; rfl
  | cons h₀ t ih =>
      intro k
      calc hexFold t (wrap64 (k * 16 + (if h₀ ≥ 10 then h₀ - 7 else h₀))) %
            18446744073709551616
          = hexVal t (wrap64 (k * 16 + (if h₀ ≥ 10 then h₀ - 7 else h₀))) %
            18446744073709551616 := ih _
        _ = hexVal t (k * 16 + (if h₀ ≥ 10 then h₀ - 7 else h₀)) %
            18446744073709551616 := hexVal_congr t _ _ (wrap64_emod _)

/-- C10: an integer literal with suffix `H` folds its hex digits with no
overflow check: the delivered `Ival` is always the exact hex value reduced
to `int32` (two's complement, i.e. modulo `2^32`) with no diagnostic; in
particular the digits of `0FFFFFFFFH` (exact value 4294967295) deliver
`Ival = −1` and no error, in contrast to the decimal path, where the
digits of `4294967295` raise "too large". -/
theorem C10_hex_wraps_silently :
    (∀ d : List Int, numberHex d = (wrap32 (hexVal d 0), SymInt, [])) ∧
    numberHex [0, 22, 22, 22, 22, 22, 22, 22, 22] = (-1, SymInt, []) ∧
    hexVal [0, 22, 22, 22, 22, 22, 22, 22, 22] 0 = 4294967295 ∧
    (decimalInteger [4, 2, 9, 4, 9, 6, 7, 2, 9, 5]).2 = ["too large"] := by
  refine ⟨fun d => ?_, by decide, by decide, by decide⟩
  have h := wrap32_congr _ _ (hexFold_emod d 0)
  simp [numberHex, h]

/-! ## Generator: constant folding of DIV and MOD
(`org.Generator.DivOp`, generator source lines corresponding to
src/orb/orb.go part 2, `DivOp`) -/

/-- The constant-constant branch of `org.Generator.DivOp`: both operands
are `ClassConst`; Go's `/=` and `%` truncate toward zero (`Int.tdiv`,
`Int.tmod`); a non-positive constant divisor raises a diagnostic and
leaves the value unchanged. -/
def DivOpConst (op : Nat) (xA yA : Int) : Int × List String :=
  if op = SymDiv then
    if yA > 0 then (Int.tdiv xA yA, []) else (xA, ["bad divisor"])
  else
    if yA > 0 then (Int.tmod xA yA, []) else (xA, ["bad modulus"])

/-- C1: constant folding of `DIV`/`MOD` uses the host language's
truncating division: `(-15) DIV 4` folds to −3 (not the floored −4) and
`(-15) MOD 4` folds to −3 (not 1), with no diagnostic; floored results
−4 and 1 are what the claim (and the generator's own power-of-two
strength-reduction path, arithmetic shift and mask) require. -/
theorem C1_divop_const_truncates :
    DivOpConst SymDiv (-15) 4 = (-3, []) ∧
    DivOpConst SymMod (-15) 4 = (-3, []) ∧
    Int.fdiv (-15) 4 = -4 ∧ (-15 : Int) - 4 * Int.fdiv (-15) 4 = 1 ∧
    (DivOpConst SymDiv (-15) 4).1 ≠ -4 ∧
    (DivOpConst SymMod (-15) 4).1 ≠ 1 := by
  decide

/-! ## Generator: register-stack discipline
(`org.Generator.CheckRegs`, called by `orp.Parser.statSequence` at every
statement boundary) -/

/-- `org.maxCode`. -/
def maxCode : Int := 8000

/-- Generator state relevant to the register-stack discipline:
fields `rh`, `frame`, `PC` of `org.Generator`, together with the scanner's
error count and the trace of diagnostic messages (`ors.Scanner.Mark`
increments the count on every call). -/
structure GenRegs where
  rh : Int
  frame : Int
  pc : Int
  errCnt : Nat
  marks : List String
deriving Repr, DecidableEq

/-- Effect of `g.ors.Mark(msg)` on the tracked generator state. -/
def genMark (g : GenRegs) (msg : String) : GenRegs :=
  { g with errCnt := g.errCnt + 1, marks := g.marks ++ [msg] }

/-- `org.Generator.CheckRegs`: a non-zero `rh` is reported as "Reg Stack"
and reset; a non-zero `frame` is reported as "frame error" and reset; a
nearly full code buffer is reported as "program too long". -/
def CheckRegs (g : GenRegs) : GenRegs :=
  let g1 := if g.rh ≠ 0 then { genMark g "Reg Stack" with rh := 0 } else g
  let g2 := if g1.pc ≥ maxCode - 40 then genMark g1 "program too long" else g1
  if g2.frame ≠ 0 then { genMark g2 "frame error" with frame := 0 } else g2

/-- A statement sequence as parsed by `orp.Parser.statSequence`: each
statement transforms the generator state, then `CheckRegs` runs at the
statement boundary.  Returns the final state and the list of boundary
states (the state right after each statement, as `CheckRegs` sees it). -/
def runStatements : List (GenRegs → GenRegs) → GenRegs → GenRegs × List GenRegs
  | [], g => (g, [])
  | f :: fs, g =>
      let b := f g
      let r := runStatements fs (CheckRegs b)
      (r.1, b :: r.2)

/-- Field-wise characterization of `CheckRegs`: `rh` and `frame` always
come out 0, `pc` is unchanged, and the error count grows by one per
violated check, with the corresponding messages appended in order. -/
theorem CheckRegs_eq (g : GenRegs) :
    CheckRegs g =
      { rh := 0
        frame := 0
        pc := g.pc
        errCnt := g.errCnt + (if g.rh ≠ 0 then 1 else 0)
          + (if g.pc ≥ maxCode - 40 then 1 else 0)
          + (if g.frame ≠ 0 then 1 else 0)
        marks := g.marks ++ (if g.rh ≠ 0 then ["Reg Stack"] else [])
          ++ (if g.pc ≥ maxCode - 40 then ["program too long"] else [])
          ++ (if g.frame ≠ 0 then ["frame error"] else []) } := by
  obtain ⟨rh, frame, pc, errCnt, marks⟩ := g
  by_cases h1 : rh = 0 <;> by_cases h2 : pc ≥ maxCode - 40 <;>
    by_cases h3 : frame = 0 <;>
    simp [CheckRegs, genMark, h1, h2, h3]

theorem CheckRegs_errCnt_mono (g : GenRegs) : g.errCnt ≤ (CheckRegs g).errCnt := by
  rw [CheckRegs_eq]
  split_ifs <;> simp <;> omega

theorem CheckRegs_errCnt_eq (g : GenRegs)
    (h : (CheckRegs g).errCnt = g.errCnt) : g.rh = 0 ∧ g.frame = 0 := by
  rw [CheckRegs_eq] at h
  simp only [] at h
  split_ifs at h <;> constructor <;> omega

theorem runStatements_errCnt_mono (fs : List (GenRegs → GenRegs)) :
    ∀ g : GenRegs, (∀ f ∈ fs, ∀ t : GenRegs, t.errCnt ≤ (f t).errCnt) →
      g.errCnt ≤ (runStatements fs g).1.errCnt := by
  induction fs with
  | nil => intro g _; simp [runStatements]
  | cons f fs ih =>
      intro g hmono
      have h1 : g.errCnt ≤ (f g).errCnt := hmono f (by simp) g
      have h2 : (f g).errCnt ≤ (CheckRegs (f g)).errCnt := CheckRegs_errCnt_mono _
      have h3 := ih (CheckRegs (f g)) (fun f' hf' => hmono f' (by simp [hf']))
      simp only [runStatements]
      omega

/-- C8: at every statement boundary `CheckRegs` leaves `rh = 0` and
`frame = 0`; if it raised no error the values already were 0; a non-zero
`rh` is reported as "Reg Stack" and a non-zero `frame` as "frame error";
consequently, in every statement sequence whose run ends with error count
0 (an accepted program; statements never decrease the count), `rh = 0` and
`frame = 0` held at every statement boundary. -/
theorem C8_reg_stack_frame_zero :
    (∀ g : GenRegs,
      (CheckRegs g).rh = 0 ∧ (CheckRegs g).frame = 0 ∧
      ((CheckRegs g).errCnt = g.errCnt → g.rh = 0 ∧ g.frame = 0) ∧
      (g.rh ≠ 0 → "Reg Stack" ∈ (CheckRegs g).marks) ∧
      (g.frame ≠ 0 → "frame error" ∈ (CheckRegs g).marks)) ∧
    (∀ (stmts : List (GenRegs → GenRegs)) (g0 : GenRegs),
      (∀ f ∈ stmts, ∀ t : GenRegs, t.errCnt ≤ (f t).errCnt) →
      g0.errCnt = 0 → (runStatements stmts g0).1.errCnt = 0 →
      ∀ b ∈ (runStatements stmts g0).2, b.rh = 0 ∧ b.frame = 0) := by
  constructor
  · intro g
    refine ⟨by rw [CheckRegs_eq], by rw [CheckRegs_eq], CheckRegs_errCnt_eq g,
      fun h => ?_, fun h => ?_⟩
    · rw [CheckRegs_eq]; simp [h]
    · rw [CheckRegs_eq]; simp [h]
  · intro stmts
    induction stmts with
    | nil =>
        intro g0 _ _ _ b hb
        simp [runStatements] at hb
    | cons f fs ih =>
        intro g0 hmono h0 hfin b hb
        have hmf : ∀ t : GenRegs, t.errCnt ≤ (f t).errCnt := hmono f (by simp)
        have hmono2 : ∀ f2 ∈ fs, ∀ t : GenRegs, t.errCnt ≤ (f2 t).errCnt :=
          fun f2 hf2 => hmono f2 (by simp [hf2])
        have hb1 : g0.errCnt ≤ (f g0).errCnt := hmf g0
        have hb2 : (f g0).errCnt ≤ (CheckRegs (f g0)).errCnt := CheckRegs_errCnt_mono _
        have hb3 : (CheckRegs (f g0)).errCnt ≤
            (runStatements fs (CheckRegs (f g0))).1.errCnt :=
          runStatements_errCnt_mono fs _ hmono2
        have hfin2 : (runStatements fs (CheckRegs (f g0))).1.errCnt = 0 := by
          simpa [runStatements] using hfin
        simp only [runStatements, List.mem_cons] at hb
        rcases hb with hb | hb
        · subst hb
          exact CheckRegs_errCnt_eq _ (by omega)
        · exact ih (CheckRegs (f g0)) hmono2 (by omega) hfin2 b hb

/-- The generator state at `org.Generator.Open`. -/
def initGenRegs : GenRegs :=
  { rh := 0, frame := 0, pc := 0, errCnt := 0, marks := [] }

/-- C8 witness: the boundary invariant discharged on a concrete one-
statement run that ends with zero errors. -/
theorem C8_reg_stack_frame_zero_witness :
    initGenRegs.rh = 0 ∧ initGenRegs.frame = 0 :=
  C8_reg_stack_frame_zero.2 [fun s => s] initGenRegs
    (by intro f hf t; simp at hf; subst hf; exact le_refl _)
    rfl (by decide) initGenRegs (by decide)

/-! ## Generator: type descriptors (`org.Generator.BuildTD`) -/

/-- The heap-allocation size computed by `org.Generator.BuildTD` from the
record size `t.Size` and stored as word 0 of the type descriptor
(`g.data[dcw] = s` with `dcw = *dc / 4`): thresholds 24, 56, 120, else
`(s + 263) / 256 * 256` with Go integer division. -/
def BuildTDAllocSize (size : Int) : Int :=
  if size ≤ 24 then 32
  else if size ≤ 56 then 64
  else if size ≤ 120 then 128
  else (size + 263).tdiv 256 * 256

/-- The rounding described by claim C4: the record size rounded up to the
nearest of 32, 64 or 128, or to the next multiple of 256. -/
def claimedAllocSize (size : Int) : Int :=
  if size ≤ 32 then 32
  else if size ≤ 64 then 64
  else if size ≤ 128 then 128
  else (size + 255).tdiv 256 * 256

/-- C4: (counterexample) a record of size 28 (a legal size, multiple of 4)
gets descriptor word 0 equal to 64, not its claimed rounding 32; the
claimed concrete instance (size 8 gives 32) does hold. -/
theorem C4_counterexample :
    BuildTDAllocSize 28 = 64 ∧ claimedAllocSize 28 = 32 ∧
    BuildTDAllocSize 28 ≠ claimedAllocSize 28 ∧
    BuildTDAllocSize 8 = 32 := by
  decide

theorem tdiv_eq_ediv_256 (a : Int) (h : 0 ≤ a) : Int.tdiv a 256 = a / 256 := by
  unfold Int.tdiv
  cases a with
  | ofNat n => rfl
  | negSucc n => exact absurd h (by simp)

/-- C4 (amended): word 0 of the descriptor is the record size rounded up
with 8 bytes of slack: 32 for sizes ≤ 24, 64 for sizes ≤ 56, 128 for
sizes ≤ 120, and otherwise the smallest multiple of 256 that is at least
size + 8; in particular a record of size 8 gets allocation size 32. -/
theorem C4_amended :
    (∀ s : Int, s ≤ 24 → BuildTDAllocSize s = 32) ∧
    (∀ s : Int, 24 < s → s ≤ 56 → BuildTDAllocSize s = 64) ∧
    (∀ s : Int, 56 < s → s ≤ 120 → BuildTDAllocSize s = 128) ∧
    (∀ s : Int, 120 < s →
      BuildTDAllocSize s % 256 = 0 ∧ s + 8 ≤ BuildTDAllocSize s ∧
      BuildTDAllocSize s < s + 8 + 256) ∧
    BuildTDAllocSize 8 = 32 := by
  refine ⟨fun s h => by simp [BuildTDAllocSize, h],
    fun s h1 h2 => by simp [BuildTDAllocSize, h2]; omega,
    fun s h1 h2 => by simp [BuildTDAllocSize, h2]; omega,
    fun s h => ?_, by decide⟩
  have h1 : ¬s ≤ 24 := by omega
  have h2 : ¬s ≤ 56 := by omega
  have h3 : ¬s ≤ 120 := by omega
  simp only [BuildTDAllocSize, if_neg h1, if_neg h2, if_neg h3]
  rw [tdiv_eq_ediv_256 _ (by omega)]
  omega

/-- C4 witness: the amended rounding discharged at sizes 8, 30, 60 and 130. -/
theorem C4_amended_witness :
    BuildTDAllocSize 8 = 32 ∧ BuildTDAllocSize 30 = 64 ∧
    BuildTDAllocSize 60 = 128 ∧
    BuildTDAllocSize 130 % 256 = 0 ∧ (130 : Int) + 8 ≤ BuildTDAllocSize 130 ∧
    BuildTDAllocSize 130 < 130 + 8 + 256 :=
  ⟨C4_amended.1 8 (by decide),
   C4_amended.2.1 30 (by decide) (by decide),
   C4_amended.2.2.1 60 (by decide) (by decide),
   C4_amended.2.2.2.1 130 (by decide)⟩

/-! ## Symbol-file export (`orb.Base.Export`, src/orb/orb.go lines 625-708)

The `files` package is not among the provided sources; its byte-level
primitives are modelled from the spec (§6: "Little-endian 32-bit words;
... Strings are byte sequences terminated by NUL", §4.2: "version byte").
The serialised exported interface (the per-object loop of `Export`) is
abstracted as an arbitrary byte list `payload`. -/

/-- `orb.VersionKey`. -/
def VersionKey : Int := 1

/-- Modelled from the spec: `files.WriteInt` of the missing `files`
package writes one 32-bit little-endian word (§6). -/
def WriteInt (x : Int) : List Nat :=
  let u := (x % 4294967296).toNat
  [u % 256, u / 256 % 256, u / 65536 % 256, u / 16777216 % 256]

/-- Modelled from the spec: `files.WriteString` of the missing `files`
package writes the string's bytes followed by a NUL terminator (§6). -/
def WriteString (s : List Nat) : List Nat := s ++ [0]

/-- Modelled from the spec: `files.Write` of the missing `files` package
writes a single byte (§4.2: "version byte (1)", "class byte"). -/
def Write (x : Int) : List Nat := [(x % 256).toNat]

/-- Value of one little-endian 4-byte group read back as a Go `int32`
(`files.ReadIntWithEOF` in the checksum loop of `Export`). -/
def readInt32 (b0 b1 b2 b3 : Nat) : Int :=
  wrap32 ((b0 : Int) + 256 * b1 + 65536 * b2 + 16777216 * b3)

/-- The checksum loop of `orb.Base.Export`: `sum += x` over all int32
words of the buffer, with `int32` wraparound, until EOF. -/
def keySum : List Nat → Int → Int
  | b0 :: b1 :: b2 :: b3 :: rest, acc => keySum rest (wrap32 (acc + readInt32 b0 b1 b2 b3))
  | _, acc => acc

/-- The symbol-file buffer built by `orb.Base.Export` before the key is
inserted: size placeholder, key placeholder, module name, version byte,
the serialised exported interface, and `4 - len%4` (1..4) zero bytes of
padding. -/
def exportBuffer (modId payload : List Nat) : List Nat :=
  let b := WriteInt 0 ++ (WriteInt 0 ++ (WriteString modId ++ (Write VersionKey ++ payload)))
  b ++ List.replicate (4 - b.length % 4) 0

/-- Result of `orb.Base.Export`: the computed key (checksum), the final
buffer, whether the symbol file was written, and the diagnostics raised
by the write decision. -/
structure ExportResult where
  key : Int
  buffer : List Nat
  written : Bool
  marks : List String
deriving Repr, DecidableEq

/-- `orb.Base.Export`: computes the checksum over the whole buffer,
patches it into bytes 4..7 (the second int32), reads the previous file's
key (`oldKey = none` when the file does not exist, in which case the code
uses `sum + 1`, which always differs from `sum`), and writes the file only
when the key changed and the flag is set or no previous file exists;
a changed key without the flag raises "new symbol file inhibited". -/
def Export (modId payload : List Nat) (oldKey : Option Int) (newSF : Bool) : ExportResult :=
  let buf := exportBuffer modId payload
  let sum := keySum buf 0
  let buf2 := buf.take 4 ++ WriteInt sum ++ buf.drop 8
  let notExist := oldKey.isNone
  let old := match oldKey with
    | none => wrap32 (sum + 1)
    | some k => k
  if sum ≠ old then
    if newSF ∨ notExist then
      { key := sum, buffer := buf2, written := true, marks := [] }
    else
      { key := sum, buffer := buf2, written := false,
        marks := ["new symbol file inhibited"] }
  else
    { key := sum, buffer := buf2, written := false, marks := [] }

theorem Export_key (modId payload : List Nat) (oldKey : Option Int) (newSF : Bool) :
    (Export modId payload oldKey newSF).key = keySum (exportBuffer modId payload) 0 := by
  simp only [Export]
  split_ifs <;> rfl

theorem Export_buffer (modId payload : List Nat) (oldKey : Option Int) (newSF : Bool) :
    (Export modId payload oldKey newSF).buffer =
      (exportBuffer modId payload).take 4 ++
        WriteInt (keySum (exportBuffer modId payload) 0) ++
        (exportBuffer modId payload).drop 8 := by
  simp only [Export]
  split_ifs <;> rfl

theorem WriteInt_zero : WriteInt 0 = [0, 0, 0, 0] := by decide

theorem WriteInt_length (x : Int) : (WriteInt x).length = 4 := by
  simp [WriteInt]

theorem exportBuffer_cons (modId payload : List Nat) :
    ∃ t, exportBuffer modId payload = 0 :: 0 :: 0 :: 0 :: t := by
  refine ⟨(WriteInt 0 ++ (WriteString modId ++ (Write VersionKey ++ payload))) ++
    List.replicate (4 - (WriteInt 0 ++ (WriteInt 0 ++ (WriteString modId ++
      (Write VersionKey ++ payload)))).length % 4) 0, ?_⟩
  conv_lhs => rw [exportBuffer]
  rw [WriteInt_zero]
  simp

theorem keySum_cons_zero (t : List Nat) : keySum (0 :: 0 :: 0 :: 0 :: t) 0 = keySum t 0 := by
  have h : wrap32 (0 + readInt32 0 0 0 0) = 0 := by decide
  rw [show keySum (0 :: 0 :: 0 :: 0 :: t) 0
      = keySum t (wrap32 (0 + readInt32 0 0 0 0)) from rfl, h]

theorem drop4_of_len4 (a b : List Nat) (h : a.length = 4) : (a ++ b).drop 4 = b := by
  rw [← h]; exact List.drop_left a b

theorem take4_of_len4 (a b : List Nat) (h : a.length = 4) : (a ++ b).take 4 = a := by
  rw [← h]; exact List.take_left a b

/-- C6: the symbol file is written only when the new-symbol-file flag is
set or no previous symbol file exists or the key matches the previous
file's key (the code in fact never rewrites on a matching key, so the
first two disjuncts already cover every write); and when the key differs
from an existing previous file's key and the flag is false, the file is
not written and "new symbol file inhibited" is emitted. -/
theorem C6_export_write_conditions :
    (∀ (modId payload : List Nat) (oldKey : Option Int) (newSF : Bool),
      (Export modId payload oldKey newSF).written = true →
        newSF = true ∨ oldKey = none ∨
          oldKey = some (Export modId payload oldKey newSF).key) ∧
    (∀ (modId payload : List Nat) (k : Int),
      (Export modId payload (some k) false).key ≠ k →
        (Export modId payload (some k) false).written = false ∧
        (Export modId payload (some k) false).marks = ["new symbol file inhibited"]) := by
  constructor
  · intro modId payload oldKey newSF h
    simp only [Export] at h
    cases oldKey with
    | none => exact Or.inr (Or.inl rfl)
    | some k =>
        cases newSF with
        | true => exact Or.inl rfl
        | false =>
            exfalso
            split_ifs at h
            all_goals simp_all
  · intro modId payload k h
    rw [Export_key] at h
    simp only [Export]
    simp only [if_pos h]
    simp

/-- C6 witness: a concrete export against an existing previous file with a
different key and the flag off: no write, inhibition diagnostic raised. -/
theorem C6_export_write_conditions_witness :
    (Export [77] [] (some 99999) false).written = false ∧
    (Export [77] [] (some 99999) false).marks = ["new symbol file inhibited"] :=
  C6_export_write_conditions.2 [77] [] 99999 (by decide)

/-- C7: the module key equals the wrapping 32-bit sum of the int32 words
of the symbol-file buffer excluding the leading size placeholder; it is
stored as the second int32 (bytes 4..7) of the final buffer; and it is a
pure function of the exported interface: the previous file's key and the
new-symbol-file flag do not affect it. -/
theorem C7_key_checksum :
    (∀ (modId payload : List Nat) (oldKey : Option Int) (newSF : Bool),
      (Export modId payload oldKey newSF).key =
        keySum ((exportBuffer modId payload).drop 4) 0 ∧
      ((Export modId payload oldKey newSF).buffer.drop 4).take 4 =
        WriteInt (Export modId payload oldKey newSF).key) ∧
    (∀ (modId payload : List Nat) (o1 o2 : Option Int) (n1 n2 : Bool),
      (Export modId payload o1 n1).key = (Export modId payload o2 n2).key) := by
  constructor
  · intro modId payload oldKey newSF
    obtain ⟨t, ht⟩ := exportBuffer_cons modId payload
    constructor
    · rw [Export_key, ht, keySum_cons_zero]
      rfl
    · rw [Export_buffer, Export_key, ht]
      have h4 : ((0 : Nat) :: 0 :: 0 :: 0 :: t).take 4 = [0, 0, 0, 0] := rfl
      rw [h4, List.append_assoc, drop4_of_len4 [0, 0, 0, 0] _ (by rfl)]
      exact take4_of_len4 _ _ (WriteInt_length _)
  · intro modId payload o1 o2 n1 n2
    rw [Export_key, Export_key]

/-! ## Module end (`orp.Parser.module`, src/unnamed/part_000 lines 1706-1719) -/

/-- Outcome of the end of `orp.Parser.module`: whether the symbol file and
the object file were written, and the final error count. -/
structure ModuleEndOutcome where
  symWritten : Bool
  objWritten : Bool
  finalErrCnt : Nat
deriving Repr, DecidableEq

/-- The end of `orp.Parser.module`: `orb.Base.Export` runs only when the
error count is zero and the version is not 0 (a `MODULE*` RISC-0 module);
`org.Generator.Close` (the object file) runs only when the error count is
still zero after export.  Every diagnostic raised inside `Export`
increments the scanner's error count; `otherExportMarks` counts the marks
`Export` can raise besides the write decision ("re-export not found"). -/
def moduleEnd (errCnt : Nat) (version : Int) (modId payload : List Nat)
    (oldKey : Option Int) (newSF : Bool) (otherExportMarks : Nat) : ModuleEndOutcome :=
  if errCnt = 0 ∧ version ≠ 0 then
    let r := Export modId payload oldKey newSF
    let errCnt2 := errCnt + r.marks.length + otherExportMarks
    { symWritten := r.written, objWritten := decide (errCnt2 = 0), finalErrCnt := errCnt2 }
  else
    { symWritten := false, objWritten := decide (errCnt = 0), finalErrCnt := errCnt }

/-- C5: (counterexample) a RISC-0 module (`version = 0`) compiled with
zero errors writes no symbol file even though the key-change rule would
permit it (no previous file exists, so `Export` would have written), while
the object file is written. -/
theorem C5_counterexample :
    (moduleEnd 0 0 [77] [] none false 0).symWritten = false ∧
    (Export [77] [] none false).written = true ∧
    (moduleEnd 0 0 [77] [] none false 0).objWritten = true := by
  refine ⟨by simp [moduleEnd], ?_, by simp [moduleEnd]⟩
  decide

/-- C5 (amended): at module end, a non-zero error count suppresses both
files; with a zero error count and version ≠ 0 the symbol file is written
exactly when `Export`'s key-change rule writes it, and the object file is
written iff `Export` raised no further error (such as "new symbol file
inhibited"); with a zero error count and version 0 the symbol file is
never written and the object file always is. -/
theorem C5_emission_rules (errCnt : Nat) (version : Int) (modId payload : List Nat)
    (oldKey : Option Int) (newSF : Bool) (om : Nat) :
    (errCnt ≠ 0 →
      (moduleEnd errCnt version modId payload oldKey newSF om).symWritten = false ∧
      (moduleEnd errCnt version modId payload oldKey newSF om).objWritten = false) ∧
    (errCnt = 0 → version ≠ 0 →
      (moduleEnd errCnt version modId payload oldKey newSF om).symWritten =
        (Export modId payload oldKey newSF).written ∧
      ((moduleEnd errCnt version modId payload oldKey newSF om).objWritten = true ↔
        (Export modId payload oldKey newSF).marks.length + om = 0)) ∧
    (errCnt = 0 → version = 0 →
      (moduleEnd errCnt version modId payload oldKey newSF om).symWritten = false ∧
      (moduleEnd errCnt version modId payload oldKey newSF om).objWritten = true) := by
  refine ⟨fun h => ?_, fun h hv => ?_, fun h hv => ?_⟩
  · have hc : ¬(errCnt = 0 ∧ version ≠ 0) := by tauto
    simp [moduleEnd, hc, h]
  · have hc : errCnt = 0 ∧ version ≠ 0 := ⟨h, hv⟩
    simp [moduleEnd, hc, h]
  · have hc : ¬(errCnt = 0 ∧ version ≠ 0) := by tauto
    simp [moduleEnd, hc, h, hv]

/-- C5 witness: the emission rules discharged on a concrete inhibited
export (zero parse errors, version 1, existing file with a different key,
flag off): the symbol file is suppressed and the object file is not
written because the inhibition diagnostic raised the error count. -/
theorem C5_emission_rules_witness :
    (moduleEnd 0 1 [77] [] (some 99999) false 0).symWritten =
      (Export [77] [] (some 99999) false).written ∧
    ((moduleEnd 0 1 [77] [] (some 99999) false 0).objWritten = true ↔
      (Export [77] [] (some 99999) false).marks.length + 0 = 0) :=
  (C5_emission_rules 0 1 [77] [] (some 99999) false 0).2.1 rfl (by decide)
